import Mathlib

/-!
Verification of the payment-gated job coordinator (main.py) and its
Chain Verifier (cardano_payments.py), shallowly embedded in Lean 4.

The embedding models the module-level mutable dictionaries `jobs`,
`payment_instances` and `tx_logs` as fields of a `ServerState`, and each
HTTP handler / background task as a pure state-transition function.
External effects (the Blockfrost indexing API, the CrewAI executor, the
payment-monitor refresh) are passed in as explicit environment values,
so a trace of handler invocations is a list of `Step`s folded over the
initial state.
-/

/-- Job lifecycle status, the string values stored in jobs[job_id]["status"]. -/
inductive JobStatus where
  | awaiting_payment
  | running
  | completed
  | failed
deriving DecidableEq, Repr

/-- Payment status axis, the values stored in jobs[job_id]["payment_status"]. -/
inductive PaymentStatus where
  | pending
  | completed
  | failed
  | unknown
  | error
deriving DecidableEq, Repr

/-- One entry of an output's "amount" list as returned by the indexing API:
a unit name and a quantity (quantities are decimal strings of naturals,
parsed with int(...)). -/
structure AmountEntry where
  unit : String
  quantity : Nat
deriving DecidableEq, Repr

/-- One transaction output as returned by the indexing API: an address and
a list of amount entries. -/
structure TxOutput where
  address : String
  amount : List AmountEntry
deriving DecidableEq, Repr

/-- The body of a successful utxo fetch: the "outputs" list of the tx. -/
structure TxInfo where
  outputs : List TxOutput
deriving DecidableEq, Repr

/-- Outcome of the HTTP GET against the indexing API in
verify_transaction_pay_to_address: either an exception (network or API
failure, caught by the try/except around client.get and raise_for_status)
or the parsed response data. -/
inductive FetchResult where
  | err (msg : String)
  | ok (data : TxInfo)
deriving DecidableEq, Repr

/-- One element of the matching_outputs list built by the verifier:
a dict with the address and one lovelace value found at that address. -/
structure MatchingOutput where
  address : String
  value : Nat
deriving DecidableEq, Repr

/-- The "details" dict of a verification result: either an error detail
(fetch failed) or the received/matching_outputs/required summary. -/
inductive VerifyDetails where
  | errorDetail (msg : String)
  | summary (received : Nat) (matching_outputs : List MatchingOutput) (required : Nat)
deriving DecidableEq, Repr

/-- The dict returned by verify_transaction_pay_to_address:
keys ok (bool) and details. -/
structure VerifyResult where
  ok : Bool
  details : VerifyDetails
deriving DecidableEq, Repr

/-- The inner loop of verify_transaction_pay_to_address: fold over the
outputs, accumulating (received, matching_outputs); for each output whose
address equals seller_address, add every amount entry of unit "lovelace"
to the running sum and append an address/value record. -/
def sumOutputs (outputs : List TxOutput) (seller_address : String) :
    Nat × List MatchingOutput :=
  outputs.foldl
    (fun acc out =>
      if out.address = seller_address then
        out.amount.foldl
          (fun acc2 amt =>
            if amt.unit = "lovelace" then
              (acc2.1 + amt.quantity, acc2.2 ++ [⟨out.address, amt.quantity⟩])
            else acc2)
          acc
      else acc)
    (0, [])

/-- Embedding of cardano_payments.verify_transaction_pay_to_address: the
fetch outcome is passed in as the environment. On a fetch exception it
returns ok = false with an error detail; otherwise it sums the lovelace
amounts sent to seller_address and reports ok = (received >= min_lovelace)
with the received/matching_outputs/required details. -/
def verify_transaction_pay_to_address (fetch : FetchResult)
    (seller_address : String) (min_lovelace : Nat) : VerifyResult :=
  match fetch with
  | .err e => ⟨false, .errorDetail e⟩
  | .ok data =>
    let acc := sumOutputs data.outputs seller_address
    ⟨decide (min_lovelace ≤ acc.1), .summary acc.1 acc.2 min_lovelace⟩

/-- Modelled from the spec sentence for the refinement comparison in C6:
the sum of the lovelace amounts over the transaction's outputs whose
address equals the target address. -/
def specReceived (outputs : List TxOutput) (addr : String) : Nat :=
  ((outputs.filter (fun o => o.address = addr)).map
    (fun o => ((o.amount.filter (fun a => a.unit = "lovelace")).map
      (fun a => a.quantity)).sum)).sum

/-- Modelled from the spec sentence for the refinement comparison in C6:
the list of matching outputs, one address/value record per lovelace
amount entry at the target address. -/
def specMatching (outputs : List TxOutput) (addr : String) :
    List MatchingOutput :=
  (outputs.filter (fun o => o.address = addr)).flatMap
    (fun o => (o.amount.filter (fun a => a.unit = "lovelace")).map
      (fun a => ⟨o.address, a.quantity⟩))

/-- The Python object stored in jobs[job_id]["result"] by the execution
phase: either a CrewOutput-like object carrying a raw attribute, or a
plain string (no raw attribute). -/
inductive PyResult where
  | strRes (s : String)
  | crewOutput (raw : String)
deriving DecidableEq, Repr

/-- The entry tx_logs[job_id] = a dict of the submitted tx_hash and the
verification details. -/
structure TxLog where
  tx_hash : String
  verified : VerifyDetails
deriving DecidableEq, Repr

/-- The mock certificate NFT record returned by
cardano_nft.mint_certificate_nft_mock: a policy id (from the
MOCK_POLICY_ID environment variable with a literal default), a token
name derived from the job id, the owner address and the metadata. -/
structure CertNft where
  policy_id : String
  token_name : String
  owner : String
  meta_job_id : Nat
  meta_identifier : String
deriving DecidableEq, Repr

/-- Embedding of cardano_nft.mint_certificate_nft_mock. Job ids are
modelled as naturals, so the token name interpolates the numeral. -/
def mint_certificate_nft_mock (policy_env : Option String)
    (owner_address : String) (job_id : Nat) (identifier : String) : CertNft :=
  { policy_id := policy_env.getD "mockpolicy1234567890"
    token_name := "Certificate-" ++ toString job_id
    owner := owner_address
    meta_job_id := job_id
    meta_identifier := identifier }

/-- One entry of the jobs dict. Optional fields model dict keys that may
be absent (initially absent keys such as "error", "tx" and "nft" are
`none`). -/
structure Job where
  status : JobStatus
  payment_status : PaymentStatus
  tx_hash : Option String
  input_data : List (String × String)
  result : Option PyResult
  error : Option String
  identifier_from_purchaser : String
  tx : Option TxLog
  nft : Option CertNft
deriving DecidableEq, Repr

/-- The module-level mutable state of main.py: the jobs dict, the
payment_instances dict (modelled as its key set; this version of the
code never inserts into it), the tx_logs dict, plus the asyncio tasks
created by submit_tx: `scheduled` holds (job_id, payment_id) pairs for
created-but-not-yet-started tasks, `inFlight` holds tasks that have set
the job to running and are awaiting the executor. `trigger_log` is a
ghost record of every create_task call (one job id per call).
`nextId` models uuid4 freshness: ids are allocated in sequence. -/
structure ServerState where
  jobs : Nat → Option Job
  payment_instances : Nat → Bool
  tx_logs : Nat → Option TxLog
  scheduled : List (Nat × String)
  inFlight : List (Nat × String)
  trigger_log : List Nat
  nextId : Nat

/-- The state at process start: all dicts empty, no tasks. -/
def ServerState.init : ServerState :=
  { jobs := fun _ => none
    payment_instances := fun _ => false
    tx_logs := fun _ => none
    scheduled := []
    inFlight := []
    trigger_log := []
    nextId := 0 }

/-- Lookup of a key in a Python dict[str, str], first binding wins. -/
def lookupStr (l : List (String × String)) (k : String) : Option String :=
  match l with
  | [] => none
  | (k', v) :: rest => if k' = k then some v else lookupStr rest k

/-- Response of the /start_job endpoint: the pending_payment payload on
success, or the HTTP 400 raised when reading input_data["text"] throws. -/
inductive StartJobResponse where
  | pendingPayment (job_id : Nat) (seller_address : Option String)
      (required_lovelace : Nat)
  | clientError
deriving DecidableEq, Repr

/-- Embedding of the /start_job handler. The handler reads
input_data["text"] (for logging) before touching the jobs dict; a missing
"text" key raises KeyError, which the handler converts to an HTTP 400,
and in that case no job is inserted. Any present value, including the
empty string, passes. On success a fresh job id is allocated and the job
is registered in awaiting_payment / pending. -/
def start_job (st : ServerState) (identifier_from_purchaser : String)
    (input_data : List (String × String)) (seller_address : Option String)
    (payment_amount_env : Option Nat) : ServerState × StartJobResponse :=
  match lookupStr input_data "text" with
  | none => (st, .clientError)
  | some _ =>
    let jid := st.nextId
    let job : Job :=
      { status := .awaiting_payment
        payment_status := .pending
        tx_hash := none
        input_data := input_data
        result := none
        error := none
        identifier_from_purchaser := identifier_from_purchaser
        tx := none
        nft := none }
    ({ st with
        jobs := fun k => if k = jid then some job else st.jobs k
        nextId := jid + 1 },
     .pendingPayment jid seller_address (payment_amount_env.getD 10000000))

/-- Response of the /submit_tx endpoint. -/
inductive SubmitTxResponse where
  | notFound
  | configError
  | failedResp (details : VerifyResult)
  | accepted (job_id : Nat) (tx_hash : String) (verification : VerifyResult)
deriving DecidableEq, Repr

/-- Embedding of the /submit_tx handler. Checks the job exists (404
otherwise), checks SELLER_ADDRESS is configured (500 otherwise), then
verifies the tx via the Chain Verifier. On ok = false it marks the job
failed on both axes and returns the details synchronously. On ok = true
it marks payment completed, stores the tx_hash on the job and the
verification in tx_logs, creates the background execution task
(asyncio.create_task, modelled by appending to `scheduled` and to the
ghost `trigger_log`), and returns the accepted acknowledgment without
waiting for the task. -/
def submit_tx (st : ServerState) (job_id : Nat) (tx_hash : String)
    (seller_address : Option String) (payment_amount_env : Option Nat)
    (fetch : FetchResult) : ServerState × SubmitTxResponse :=
  match st.jobs job_id with
  | none => (st, .notFound)
  | some job =>
    match seller_address with
    | none => (st, .configError)
    | some addr =>
      let required := payment_amount_env.getD 10000000
      let verification := verify_transaction_pay_to_address fetch addr required
      if verification.ok then
        let job' := { job with payment_status := .completed, tx_hash := some tx_hash }
        ({ st with
            jobs := fun k => if k = job_id then some job' else st.jobs k
            tx_logs := fun k =>
              if k = job_id then some ⟨tx_hash, verification.details⟩
              else st.tx_logs k
            scheduled := st.scheduled ++ [(job_id, tx_hash)]
            trigger_log := st.trigger_log ++ [job_id] },
         .accepted job_id tx_hash verification)
      else
        let job' := { job with payment_status := .failed, status := .failed }
        ({ st with
            jobs := fun k => if k = job_id then some job' else st.jobs k },
         .failedResp verification)

/-- Remove the first occurrence of a pair from a task list. -/
def eraseFirst (l : List (Nat × String)) (x : Nat × String) :
    List (Nat × String) :=
  match l with
  | [] => []
  | y :: ys => if y = x then ys else y :: eraseFirst ys x

/-- Embedding of the first half of handle_payment_status, up to the await
of the executor: the created task starts, logs, and sets the job's status
to "running". The task must have been scheduled (asyncio runs each created
task once); if the job id is absent nothing is modelled (unreachable from
the handlers, which only schedule existing jobs). -/
def exec_begin (st : ServerState) (job_id : Nat) (payment_id : String) :
    ServerState :=
  if (job_id, payment_id) ∈ st.scheduled then
    match st.jobs job_id with
    | some job =>
      { st with
          scheduled := eraseFirst st.scheduled (job_id, payment_id)
          inFlight := st.inFlight ++ [(job_id, payment_id)]
          jobs := fun k =>
            if k = job_id then some { job with status := .running }
            else st.jobs k }
    | none => st
  else st

/-- Embedding of the second half of handle_payment_status, from the return
of (or the exception raised by) execute_crew_task. On success: status and
payment_status become completed, the result object is stored, the tx log
entry (if any) is copied onto the job, the mock NFT is minted best-effort
(the owner falls back to the CERT_OWNER_ADDRESS environment value or
"unknown"; the verification details dict has no address key), and the
payment-instance handle is stopped and deleted if present. On an
exception: status becomes failed, the error message is stored, and the
handle is likewise stopped and deleted. -/
def exec_finish (st : ServerState) (job_id : Nat) (payment_id : String)
    (outcome : Except String PyResult) (cert_owner_env : Option String)
    (policy_env : Option String) : ServerState :=
  if (job_id, payment_id) ∈ st.inFlight then
    match st.jobs job_id with
    | some job =>
      let st1 := { st with inFlight := eraseFirst st.inFlight (job_id, payment_id) }
      match outcome with
      | .error e =>
        { st1 with
            jobs := fun k =>
              if k = job_id then
                some { job with status := .failed, error := some e }
              else st.jobs k
            payment_instances := fun k =>
              if k = job_id then false else st.payment_instances k }
      | .ok r =>
        let job1 := { job with
          status := JobStatus.completed
          payment_status := PaymentStatus.completed
          result := some r }
        let job2 := match st.tx_logs job_id with
          | some t => { job1 with tx := some t }
          | none => job1
        let owner := cert_owner_env.getD "unknown"
        let nft := mint_certificate_nft_mock policy_env owner job_id
          job.identifier_from_purchaser
        let job3 := { job2 with nft := some nft }
        { st1 with
            jobs := fun k => if k = job_id then some job3 else st.jobs k
            payment_instances := fun k =>
              if k = job_id then false else st.payment_instances k }
    | none => st
  else st

/-- Outcome of the payment-monitor refresh inside get_status when a
payment instance exists for the job: a status value, a ValueError, or any
other exception. -/
inductive PayCheck where
  | ok (s : PaymentStatus)
  | valueErr
  | exnErr
deriving DecidableEq, Repr

/-- The read view returned by /status. -/
structure StatusView where
  job_id : Nat
  status : JobStatus
  payment_status : PaymentStatus
  result : Option String
  tx : Option TxLog
deriving DecidableEq, Repr

/-- Response of the /status endpoint. -/
inductive StatusResponse where
  | notFound
  | ok (view : StatusView)
deriving DecidableEq, Repr

/-- The result extraction of get_status: result_data.raw when the stored
object is truthy and has a raw attribute, None otherwise (a plain string
has no raw attribute). -/
def viewResult (r : Option PyResult) : Option String :=
  match r with
  | some (.crewOutput raw) => some raw
  | _ => none

/-- Embedding of the /status handler. 404 for unknown ids; if a payment
instance is held for the job the payment_status is refreshed from the
monitor (downgrading to unknown on ValueError and to error on any other
exception) and written back to the job; the view exposes status,
payment_status, the raw attribute of the result (or None), and the tx
log copied onto the job. -/
def get_status (st : ServerState) (job_id : Nat) (check : PayCheck) :
    ServerState × StatusResponse :=
  match st.jobs job_id with
  | none => (st, .notFound)
  | some job =>
    let job' :=
      if st.payment_instances job_id then
        match check with
        | .ok s => { job with payment_status := s }
        | .valueErr => { job with payment_status := .unknown }
        | .exnErr => { job with payment_status := .error }
      else job
    let st' :=
      if st.payment_instances job_id then
        { st with jobs := fun k => if k = job_id then some job' else st.jobs k }
      else st
    (st', .ok
      { job_id := job_id
        status := job'.status
        payment_status := job'.payment_status
        result := viewResult job'.result
        tx := job'.tx })

/-- One observable step of the server: a handler invocation or one half
of a background execution task, with all external-world outcomes passed
as data. -/
inductive Step where
  | startJob (identifier_from_purchaser : String)
      (input_data : List (String × String)) (seller_address : Option String)
      (payment_amount_env : Option Nat)
  | submitTx (job_id : Nat) (tx_hash : String) (seller_address : Option String)
      (payment_amount_env : Option Nat) (fetch : FetchResult)
  | execBegin (job_id : Nat) (payment_id : String)
  | execFinish (job_id : Nat) (payment_id : String)
      (outcome : Except String PyResult) (cert_owner_env : Option String)
      (policy_env : Option String)
  | getStatus (job_id : Nat) (check : PayCheck)

/-- State transition of one step (responses discarded). -/
def runStep (st : ServerState) (s : Step) : ServerState :=
  match s with
  | .startJob idp input sa pa => (start_job st idp input sa pa).1
  | .submitTx i h sa pa f => (submit_tx st i h sa pa f).1
  | .execBegin i pid => exec_begin st i pid
  | .execFinish i pid outcome co po => exec_finish st i pid outcome co po
  | .getStatus i chk => (get_status st i chk).1

/-- State after running a trace of steps from process start. -/
def runTrace (l : List Step) : ServerState :=
  l.foldl runStep ServerState.init

/-- Status of a job id in a state, as an optional value. -/
def statusOf (st : ServerState) (i : Nat) : Option JobStatus :=
  (st.jobs i).map Job.status

/-- A successful fetch whose single output pays 15000000 lovelace to
"addr": verification against a 10000000 requirement passes. -/
def goodFetch : FetchResult :=
  .ok ⟨[⟨"addr", [⟨"lovelace", 15000000⟩]⟩]⟩

/-- A successful fetch whose single output pays 3000000 lovelace to
"addr": verification against a 10000000 requirement fails. -/
def badFetch : FetchResult :=
  .ok ⟨[⟨"addr", [⟨"lovelace", 3000000⟩]⟩]⟩

lemma foldAmt_eq (recAddr : String) (amts : List AmountEntry)
    (acc : Nat × List MatchingOutput) :
    amts.foldl
      (fun acc2 amt =>
        if amt.unit = "lovelace" then
          (acc2.1 + amt.quantity, acc2.2 ++ [⟨recAddr, amt.quantity⟩])
        else acc2)
      acc
    = (acc.1 + ((amts.filter (fun a => a.unit = "lovelace")).map
          (fun a => a.quantity)).sum,
       acc.2 ++ (amts.filter (fun a => a.unit = "lovelace")).map
          (fun a => (⟨recAddr, a.quantity⟩ : MatchingOutput))) := by
  induction amts generalizing acc with
  | nil => simp
  | cons a as ih =>
    by_cases h : a.unit = "lovelace" <;>
      simp [List.foldl_cons, h, ih, Nat.add_assoc]

lemma sumOutputs_eq (outputs : List TxOutput) (addr : String) :
    sumOutputs outputs addr = (specReceived outputs addr, specMatching outputs addr) := by
  suffices h : ∀ (acc : Nat × List MatchingOutput),
      outputs.foldl
        (fun acc out =>
          if out.address = addr then
            out.amount.foldl
              (fun acc2 amt =>
                if amt.unit = "lovelace" then
                  (acc2.1 + amt.quantity, acc2.2 ++ [⟨out.address, amt.quantity⟩])
                else acc2)
              acc
          else acc)
        acc
      = (acc.1 + specReceived outputs addr, acc.2 ++ specMatching outputs addr) by
    simpa [sumOutputs] using h (0, [])
  induction outputs with
  | nil => intro acc; simp [specReceived, specMatching]
  | cons o os ih =>
    intro acc
    simp only [List.foldl_cons]
    by_cases h : o.address = addr
    · rw [if_pos h, foldAmt_eq, ih]
      simp [specReceived, specMatching, h, Nat.add_assoc]
    · rw [if_neg h, ih]
      simp [specReceived, specMatching, h]

/-- Trace: one job created with a non-empty text field. -/
def trStart : List Step :=
  [.startJob "p" [("text", "hi")] (some "addr") (some 10000000)]

/-- Trace: job 0 created, then a proof submitted whose verification fails
(3000000 received against 10000000 required). -/
def trFailVerify : List Step :=
  trStart ++ [.submitTx 0 "tx" (some "addr") (some 10000000) badFetch]

/-- Trace: job 0 created, then a proof submitted whose verification
succeeds (15000000 received against 10000000 required). -/
def trAccepted : List Step :=
  trStart ++ [.submitTx 0 "tx" (some "addr") (some 10000000) goodFetch]

/-- Trace: accepted job whose background execution task has started. -/
def trRunning : List Step :=
  trAccepted ++ [.execBegin 0 "tx"]

/-- Trace: accepted job whose execution finished with a CrewOutput-like
result. -/
def trCompleted : List Step :=
  trRunning ++ [.execFinish 0 "tx" (.ok (.crewOutput "out")) none none]

/-- Trace: accepted job whose execution finished with a plain-string
result (no raw attribute). -/
def trCompletedStr : List Step :=
  trRunning ++ [.execFinish 0 "tx" (.ok (.strRes "plain")) none none]

/-- C7 counterexample input: a job creation whose text field is present
but empty. -/
def emptyTextInput : List (String × String) := [("text", "")]

/-- C7: the claim says a createJob request with an empty text field fails
with a ValidationError and registers no job. In the code only a missing
"text" key raises (KeyError, converted to HTTP 400); the empty string
passes the read on line 128 of main.py, so the call succeeds and the job
is registered in awaiting_payment. -/
theorem C7_counterexample :
    (start_job ServerState.init "p" emptyTextInput (some "addr") (some 10000000)).2 =
      .pendingPayment 0 (some "addr") 10000000 ∧
    ((start_job ServerState.init "p" emptyTextInput (some "addr")
        (some 10000000)).1.jobs 0).map Job.status =
      some .awaiting_payment := by
  constructor <;> rfl

/-- C7 (amended): a createJob request whose inputData lacks a "text" key
fails with a client error and registers no job (the state is unchanged);
an inputData with an empty text value is accepted. -/
theorem C7_missing_text_client_error (st : ServerState)
    (idp : String) (input : List (String × String)) (sa : Option String)
    (pa : Option Nat) (hmiss : lookupStr input "text" = none) :
    start_job st idp input sa pa = (st, .clientError) := by
  simp [start_job, hmiss]

/-- C7 witness: a concrete request without a text key yields the client
error and leaves the initial state untouched. -/
theorem C7_witness :
    lookupStr [("other", "x")] "text" = none ∧
    start_job ServerState.init "p" [("other", "x")] (some "addr") none =
      (ServerState.init, .clientError) :=
  ⟨rfl, C7_missing_text_client_error ServerState.init "p" [("other", "x")]
    (some "addr") none rfl⟩

/-- C8: submitting a transaction proof for a job id that is not in the
jobs dict returns the 404 response and changes nothing; the result does
not depend on the fetch environment, so the Chain Verifier is never
consulted. -/
theorem C8_unknown_job_not_found (st : ServerState) (i : Nat) (h : String)
    (sa : Option String) (pa : Option Nat) (f : FetchResult)
    (hnone : st.jobs i = none) :
    submit_tx st i h sa pa f = (st, .notFound) := by
  simp [submit_tx, hnone]

/-- C8 witness: submitting for id 7 on the initial state yields the 404
response. -/
theorem C8_witness :
    ServerState.init.jobs 7 = none ∧
    submit_tx ServerState.init 7 "tx" (some "addr") none goodFetch =
      (ServerState.init, .notFound) :=
  ⟨rfl, C8_unknown_job_not_found ServerState.init 7 "tx" (some "addr") none
    goodFetch rfl⟩

/-- Projection of a /status response onto the result field it reports
(none for a 404). -/
def respResult : StatusResponse → Option (Option String)
  | .notFound => none
  | .ok v => some v.result

/-- The completed-with-a-plain-string job produced by trCompletedStr. -/
def jobCompletedStr : Job :=
  { status := .completed
    payment_status := .completed
    tx_hash := some "tx"
    input_data := [("text", "hi")]
    result := some (.strRes "plain")
    error := none
    identifier_from_purchaser := "p"
    tx := some ⟨"tx", .summary 15000000 [⟨"addr", 15000000⟩] 10000000⟩
    nft := some ⟨"mockpolicy1234567890", "Certificate-0", "unknown", 0, "p"⟩ }

/-- C10: the status view reports the raw attribute of the stored result
when it has one, and null otherwise; in particular a job whose stored
result is a plain string (no raw attribute) is reported with result =
null, whatever its status. -/
theorem C10_status_result_needs_raw (st : ServerState) (i : Nat)
    (chk : PayCheck) (job : Job) (hj : st.jobs i = some job) :
    respResult (get_status st i chk).2 = some (viewResult job.result) ∧
    (∀ s : String, job.result = some (.strRes s) →
      respResult (get_status st i chk).2 = some none) := by
  have hmain : respResult (get_status st i chk).2 = some (viewResult job.result) := by
    by_cases hpi : st.payment_instances i = true <;>
      cases chk <;> simp [get_status, hj, respResult, hpi]
  refine ⟨hmain, fun s hs => ?_⟩
  rw [hmain, hs]
  rfl

/-- C10 witness: after a trace whose execution stored a plain string, the
status view for the completed job reports result = null. -/
theorem C10_witness :
    (runTrace trCompletedStr).jobs 0 = some jobCompletedStr ∧
    jobCompletedStr.status = .completed ∧
    respResult (get_status (runTrace trCompletedStr) 0 .valueErr).2 = some none :=
  ⟨by decide, rfl,
   (C10_status_result_needs_raw (runTrace trCompletedStr) 0 .valueErr
      jobCompletedStr (by decide)).2 "plain" rfl⟩

/-- The running job produced by trRunning. -/
def jobRunning : Job :=
  { status := .running
    payment_status := .completed
    tx_hash := some "tx"
    input_data := [("text", "hi")]
    result := none
    error := none
    identifier_from_purchaser := "p"
    tx := none
    nft := none }

/-- C9: when the execution phase ends, the payment-instance handle for
the job is absent afterwards on both paths, and on the failure path the
job's status is failed with the error message recorded. -/
theorem C9_failure_sets_error_and_cleanup (st : ServerState) (i : Nat)
    (pid : String) (job : Job) (co po : Option String)
    (hin : (i, pid) ∈ st.inFlight) (hj : st.jobs i = some job) :
    (∀ e : String,
      (exec_finish st i pid (.error e) co po).jobs i =
        some { job with status := .failed, error := some e } ∧
      (exec_finish st i pid (.error e) co po).payment_instances i = false) ∧
    (∀ r : PyResult,
      (exec_finish st i pid (.ok r) co po).payment_instances i = false) := by
  refine ⟨fun e => ⟨?_, ?_⟩, fun r => ?_⟩ <;> simp [exec_finish, hin, hj]

/-- C9 witness: after the running trace, finishing with an exception
records the failed status with the message and leaves no payment
instance; finishing with a result also leaves no payment instance. -/
theorem C9_witness :
    ((0, "tx") ∈ (runTrace trRunning).inFlight) ∧
    (exec_finish (runTrace trRunning) 0 "tx" (.error "boom") none none).jobs 0 =
      some { jobRunning with status := .failed, error := some "boom" } ∧
    (exec_finish (runTrace trRunning) 0 "tx" (.error "boom") none none).payment_instances 0 = false ∧
    (exec_finish (runTrace trRunning) 0 "tx" (.ok (.crewOutput "out")) none none).payment_instances 0 = false :=
  ⟨by decide,
   ((C9_failure_sets_error_and_cleanup (runTrace trRunning) 0 "tx" jobRunning
      none none (by decide) (by decide)).1 "boom").1,
   ((C9_failure_sets_error_and_cleanup (runTrace trRunning) 0 "tx" jobRunning
      none none (by decide) (by decide)).1 "boom").2,
   (C9_failure_sets_error_and_cleanup (runTrace trRunning) 0 "tx" jobRunning
      none none (by decide) (by decide)).2 (.crewOutput "out")⟩

/-- C6: the Chain Verifier reports ok = true exactly when the sum of the
lovelace amounts over the outputs paying the target address reaches the
minimum, with details carrying that received sum, the matching outputs
and the required amount; on a fetch failure it reports ok = false with
an error detail (the exception is caught, not raised). -/
theorem C6_verifier_correct (fetch : FetchResult) (addr : String)
    (minL : Nat) :
    (∀ e, fetch = .err e →
      verify_transaction_pay_to_address fetch addr minL =
        ⟨false, .errorDetail e⟩) ∧
    (∀ d, fetch = .ok d →
      ((verify_transaction_pay_to_address fetch addr minL).ok = true ↔
        minL ≤ specReceived d.outputs addr) ∧
      (verify_transaction_pay_to_address fetch addr minL).details =
        .summary (specReceived d.outputs addr) (specMatching d.outputs addr)
          minL) := by
  constructor
  · intro e he; subst he; rfl
  · intro d hd; subst hd
    simp [verify_transaction_pay_to_address, sumOutputs_eq]

/-- C6 witness: an API failure yields ok = false with the error detail,
and the 15000000-lovelace fetch against a 10000000 requirement yields
ok = true with the spec-side sum. -/
theorem C6_witness :
    verify_transaction_pay_to_address (.err "timeout") "addr" 10000000 =
      ⟨false, .errorDetail "timeout"⟩ ∧
    ((verify_transaction_pay_to_address goodFetch "addr" 10000000).ok = true ↔
      10000000 ≤ specReceived [⟨"addr", [⟨"lovelace", 15000000⟩]⟩] "addr") :=
  ⟨(C6_verifier_correct (.err "timeout") "addr" 10000000).1 "timeout" rfl,
   ((C6_verifier_correct goodFetch "addr" 10000000).2
      ⟨[⟨"addr", [⟨"lovelace", 15000000⟩]⟩]⟩ rfl).1⟩

/-- Trace: job 0 fails verification, then a second proof for the same
job passes verification. -/
def trFailThenPaid : List Step :=
  trFailVerify ++ [.submitTx 0 "tx2" (some "addr") (some 10000000) goodFetch]

/-- Trace: after the failed-then-paid submissions, the background task of
the second submission starts. -/
def trFailPaidRunning : List Step :=
  trFailThenPaid ++ [.execBegin 0 "tx2"]

/-- C4 counterexample: job 0 receives an ok = false verification (the
synchronous failure response), yet an execution phase is later triggered
for that same job by a subsequent successful submission, so "no execution
phase is ever triggered for that job" fails. -/
theorem C4_counterexample :
    (submit_tx (runTrace trStart) 0 "tx" (some "addr") (some 10000000)
        badFetch).2 =
      .failedResp ⟨false, .summary 3000000 [⟨"addr", 3000000⟩] 10000000⟩ ∧
    (runTrace trFailVerify).trigger_log = [] ∧
    (runTrace trFailThenPaid).trigger_log = [0] := by
  refine ⟨?_, ?_, ?_⟩ <;> decide

/-- C4 (amended): a submitTransactionProof call on a known job whose
verification reports ok = false marks the job failed on both axes,
returns the verification details synchronously, and triggers no execution
task itself; a later successful submission for the same job may still
trigger one. -/
theorem C4_failed_verification (st : ServerState) (i : Nat) (h : String)
    (addr : String) (pa : Option Nat) (f : FetchResult) (job : Job)
    (hj : st.jobs i = some job)
    (hok : (verify_transaction_pay_to_address f addr (pa.getD 10000000)).ok
      = false) :
    (submit_tx st i h (some addr) pa f).2 =
      .failedResp (verify_transaction_pay_to_address f addr
        (pa.getD 10000000)) ∧
    ((submit_tx st i h (some addr) pa f).1.jobs i).map Job.status =
      some .failed ∧
    ((submit_tx st i h (some addr) pa f).1.jobs i).map Job.payment_status =
      some .failed ∧
    (submit_tx st i h (some addr) pa f).1.scheduled = st.scheduled ∧
    (submit_tx st i h (some addr) pa f).1.trigger_log = st.trigger_log := by
  refine ⟨?_, ?_, ?_, ?_, ?_⟩ <;> simp [submit_tx, hj, hok]

/-- C4 witness: the concrete 3000000-lovelace proof against the
10000000 requirement is rejected synchronously, the job is failed on both
axes, and no task is scheduled by the call. -/
theorem C4_witness :
    (submit_tx (runTrace trStart) 0 "tx" (some "addr") (some 10000000)
        badFetch).2 =
      .failedResp (verify_transaction_pay_to_address badFetch "addr"
        ((some 10000000).getD 10000000)) ∧
    ((submit_tx (runTrace trStart) 0 "tx" (some "addr") (some 10000000)
        badFetch).1.jobs 0).map Job.status = some .failed ∧
    ((submit_tx (runTrace trStart) 0 "tx" (some "addr") (some 10000000)
        badFetch).1.jobs 0).map Job.payment_status = some .failed ∧
    (submit_tx (runTrace trStart) 0 "tx" (some "addr") (some 10000000)
        badFetch).1.scheduled = (runTrace trStart).scheduled ∧
    (submit_tx (runTrace trStart) 0 "tx" (some "addr") (some 10000000)
        badFetch).1.trigger_log = (runTrace trStart).trigger_log :=
  C4_failed_verification (runTrace trStart) 0 "tx" "addr" (some 10000000)
    badFetch
    { status := .awaiting_payment
      payment_status := .pending
      tx_hash := none
      input_data := [("text", "hi")]
      result := none
      error := none
      identifier_from_purchaser := "p"
      tx := none
      nft := none }
    (by decide) (by decide)

/-- C5: a submitTransactionProof call on a known awaiting-payment job
whose verification reports ok = true sets payment_status to completed,
records the tx_hash on the job and the verification in the tx log,
returns the accepted acknowledgment with the task merely scheduled (the
call does not wait for it), leaves the status observable as
awaiting_payment, and the scheduled background step is what sets it to
running. -/
theorem C5_accepted_flow (st : ServerState) (i : Nat) (h : String)
    (addr : String) (pa : Option Nat) (f : FetchResult) (job : Job)
    (hj : st.jobs i = some job) (hst : job.status = .awaiting_payment)
    (hok : (verify_transaction_pay_to_address f addr (pa.getD 10000000)).ok
      = true) :
    (submit_tx st i h (some addr) pa f).2 =
      .accepted i h (verify_transaction_pay_to_address f addr
        (pa.getD 10000000)) ∧
    ((submit_tx st i h (some addr) pa f).1.jobs i).map Job.payment_status =
      some .completed ∧
    ((submit_tx st i h (some addr) pa f).1.jobs i).map Job.tx_hash =
      some (some h) ∧
    (submit_tx st i h (some addr) pa f).1.tx_logs i =
      some ⟨h, (verify_transaction_pay_to_address f addr
        (pa.getD 10000000)).details⟩ ∧
    ((submit_tx st i h (some addr) pa f).1.jobs i).map Job.status =
      some .awaiting_payment ∧
    (submit_tx st i h (some addr) pa f).1.scheduled =
      st.scheduled ++ [(i, h)] ∧
    statusOf (exec_begin (submit_tx st i h (some addr) pa f).1 i h) i =
      some .running := by
  have hjobs :
      (submit_tx st i h (some addr) pa f).1.jobs i =
        some { job with payment_status := .completed, tx_hash := some h } := by
    simp [submit_tx, hj, hok]
  refine ⟨?_, ?_, ?_, ?_, ?_, ?_, ?_⟩
  · simp [submit_tx, hj, hok]
  · rw [hjobs]; rfl
  · rw [hjobs]; rfl
  · simp [submit_tx, hj, hok]
  · rw [hjobs]; simp [hst]
  · simp [submit_tx, hj, hok]
  · have hsched : (i, h) ∈ (submit_tx st i h (some addr) pa f).1.scheduled := by
      simp [submit_tx, hj, hok]
    simp [exec_begin, hsched, hjobs, statusOf]

/-- C5 witness: the concrete accepted submission on the freshly created
job exhibits every conjunct, with the 15000000-lovelace verification. -/
theorem C5_witness :
    (submit_tx (runTrace trStart) 0 "tx" (some "addr") (some 10000000)
        goodFetch).2 =
      .accepted 0 "tx" (verify_transaction_pay_to_address goodFetch "addr"
        ((some 10000000).getD 10000000)) ∧
    ((submit_tx (runTrace trStart) 0 "tx" (some "addr") (some 10000000)
        goodFetch).1.jobs 0).map Job.payment_status = some .completed ∧
    ((submit_tx (runTrace trStart) 0 "tx" (some "addr") (some 10000000)
        goodFetch).1.jobs 0).map Job.tx_hash = some (some "tx") ∧
    (submit_tx (runTrace trStart) 0 "tx" (some "addr") (some 10000000)
        goodFetch).1.tx_logs 0 =
      some ⟨"tx", (verify_transaction_pay_to_address goodFetch "addr"
        ((some 10000000).getD 10000000)).details⟩ ∧
    ((submit_tx (runTrace trStart) 0 "tx" (some "addr") (some 10000000)
        goodFetch).1.jobs 0).map Job.status = some .awaiting_payment ∧
    (submit_tx (runTrace trStart) 0 "tx" (some "addr") (some 10000000)
        goodFetch).1.scheduled = (runTrace trStart).scheduled ++ [(0, "tx")] ∧
    statusOf (exec_begin (submit_tx (runTrace trStart) 0 "tx" (some "addr")
        (some 10000000) goodFetch).1 0 "tx") 0 = some .running :=
  C5_accepted_flow (runTrace trStart) 0 "tx" "addr" (some 10000000) goodFetch
    { status := .awaiting_payment
      payment_status := .pending
      tx_hash := none
      input_data := [("text", "hi")]
      result := none
      error := none
      identifier_from_purchaser := "p"
      tx := none
      nft := none }
    (by decide) rfl (by decide)

/-- C2 counterexample: after job 0 has already been verified and its
execution triggered once (trAccepted), a second submitTransactionProof
with a fresh hash is accepted again, a second execution task is created
for the same job (two create_task entries in the ghost log), and the
job's tx_hash is overwritten by the second hash — the code neither
rejects nor ignores the duplicate. -/
theorem C2_counterexample :
    (submit_tx (runTrace trAccepted) 0 "tx2" (some "addr") (some 10000000)
        goodFetch).2 =
      .accepted 0 "tx2" ⟨true, .summary 15000000 [⟨"addr", 15000000⟩]
        10000000⟩ ∧
    (submit_tx (runTrace trAccepted) 0 "tx2" (some "addr") (some 10000000)
        goodFetch).1.trigger_log = [0, 0] ∧
    ((submit_tx (runTrace trAccepted) 0 "tx2" (some "addr") (some 10000000)
        goodFetch).1.jobs 0).map Job.tx_hash = some (some "tx2") := by
  refine ⟨?_, ?_, ?_⟩ <;> decide

/-- C2 (amended): every accepted submitTransactionProof call triggers
exactly one execution task for that call (one create_task entry) and sets
the job's txHash to the submitted hash; the code has no duplicate guard,
so a second accepted submission for an already-verified job triggers a
second execution and overwrites txHash. -/
theorem C2_accept_triggers_once_per_call (st : ServerState) (i : Nat)
    (h : String) (sa : Option String) (pa : Option Nat) (f : FetchResult)
    (jid : Nat) (hh : String) (v : VerifyResult)
    (hacc : (submit_tx st i h sa pa f).2 = .accepted jid hh v) :
    (submit_tx st i h sa pa f).1.trigger_log = st.trigger_log ++ [i] ∧
    (submit_tx st i h sa pa f).1.scheduled = st.scheduled ++ [(i, h)] ∧
    ((submit_tx st i h sa pa f).1.jobs i).map Job.tx_hash =
      some (some h) := by
  cases hj : st.jobs i with
  | none => simp [submit_tx, hj] at hacc
  | some job =>
    cases sa with
    | none => simp [submit_tx, hj] at hacc
    | some addr =>
      by_cases hok : (verify_transaction_pay_to_address f addr
          (pa.getD 10000000)).ok = true
      · refine ⟨?_, ?_, ?_⟩ <;> simp [submit_tx, hj, hok]
      · rw [Bool.not_eq_true] at hok
        simp [submit_tx, hj, hok] at hacc

/-- C2 witness: the first accepted submission for job 0 creates exactly
one task and records its hash. -/
theorem C2_witness :
    (submit_tx (runTrace trStart) 0 "tx" (some "addr") (some 10000000)
        goodFetch).2 =
      .accepted 0 "tx" ⟨true, .summary 15000000 [⟨"addr", 15000000⟩]
        10000000⟩ ∧
    (submit_tx (runTrace trStart) 0 "tx" (some "addr") (some 10000000)
        goodFetch).1.trigger_log = (runTrace trStart).trigger_log ++ [0] ∧
    (submit_tx (runTrace trStart) 0 "tx" (some "addr") (some 10000000)
        goodFetch).1.scheduled = (runTrace trStart).scheduled ++ [(0, "tx")] ∧
    ((submit_tx (runTrace trStart) 0 "tx" (some "addr") (some 10000000)
        goodFetch).1.jobs 0).map Job.tx_hash = some (some "tx") := by
  refine ⟨by decide, ?_⟩
  exact C2_accept_triggers_once_per_call (runTrace trStart) 0 "tx"
    (some "addr") (some 10000000) goodFetch 0 "tx"
    ⟨true, .summary 15000000 [⟨"addr", 15000000⟩] 10000000⟩ (by decide)

/-- C1 counterexample: after a failed verification the job's status is
failed but its error field was never written (only payment_status and
status are set on that path), so "error is set iff status = Failed"
fails at an observable point. -/
theorem C1_counterexample :
    statusOf (runTrace trFailVerify) 0 = some .failed ∧
    ((runTrace trFailVerify).jobs 0).map Job.error = some none := by
  constructor <;> decide

lemma runStep_completed_result (st : ServerState) (s : Step) (i : Nat)
    (job : Job) (hj : (runStep st s).jobs i = some job) :
    job.status ≠ .completed ∨ job.result.isSome = true ∨
    ∃ old, st.jobs i = some old ∧ job.status = old.status ∧
      job.result = old.result := by
  cases s with
  | startJob idp input sa pa =>
    cases hl : lookupStr input "text" with
    | none =>
      simp [runStep, start_job, hl] at hj
      exact Or.inr (Or.inr ⟨job, hj, rfl, rfl⟩)
    | some t =>
      simp only [runStep, start_job, hl] at hj
      try dsimp only at hj
      by_cases hi : i = st.nextId
      · rw [if_pos hi] at hj
        injection hj with hj
        subst hj
        exact Or.inl (by intro hcon; simp at hcon)
      · rw [if_neg hi] at hj
        exact Or.inr (Or.inr ⟨job, hj, rfl, rfl⟩)
  | submitTx j h sa pa f =>
    cases hj0 : st.jobs j with
    | none =>
      simp [runStep, submit_tx, hj0] at hj
      exact Or.inr (Or.inr ⟨job, hj, rfl, rfl⟩)
    | some oldj =>
      cases sa with
      | none =>
        simp [runStep, submit_tx, hj0] at hj
        exact Or.inr (Or.inr ⟨job, hj, rfl, rfl⟩)
      | some addr =>
        by_cases hok : (verify_transaction_pay_to_address f addr
            (pa.getD 10000000)).ok = true
        · simp only [runStep, submit_tx, hj0, hok, if_pos] at hj
          try dsimp only at hj
          by_cases hi : i = j
          · rw [if_pos hi] at hj
            injection hj with hj
            subst hj
            exact Or.inr (Or.inr ⟨oldj, hi ▸ hj0, rfl, rfl⟩)
          · rw [if_neg hi] at hj
            exact Or.inr (Or.inr ⟨job, hj, rfl, rfl⟩)
        · rw [Bool.not_eq_true] at hok
          simp only [runStep, submit_tx, hj0, hok] at hj
          rw [if_neg (by simp)] at hj
          try dsimp only at hj
          by_cases hi : i = j
          · rw [if_pos hi] at hj
            injection hj with hj
            subst hj
            exact Or.inl (by intro hcon; simp at hcon)
          · rw [if_neg hi] at hj
            exact Or.inr (Or.inr ⟨job, hj, rfl, rfl⟩)
  | execBegin j pid =>
    by_cases hmem : (j, pid) ∈ st.scheduled
    · cases hj0 : st.jobs j with
      | none =>
        simp [runStep, exec_begin, hmem, hj0] at hj
        exact Or.inr (Or.inr ⟨job, hj, rfl, rfl⟩)
      | some oldj =>
        simp only [runStep, exec_begin, hmem, if_pos, hj0] at hj
        try dsimp only at hj
        by_cases hi : i = j
        · rw [if_pos hi] at hj
          injection hj with hj
          subst hj
          exact Or.inl (by intro hcon; simp at hcon)
        · rw [if_neg hi] at hj
          exact Or.inr (Or.inr ⟨job, hj, rfl, rfl⟩)
    · simp [runStep, exec_begin, hmem] at hj
      exact Or.inr (Or.inr ⟨job, hj, rfl, rfl⟩)
  | execFinish j pid outcome co po =>
    by_cases hmem : (j, pid) ∈ st.inFlight
    · cases hj0 : st.jobs j with
      | none =>
        simp [runStep, exec_finish, hmem, hj0] at hj
        exact Or.inr (Or.inr ⟨job, hj, rfl, rfl⟩)
      | some oldj =>
        cases outcome with
        | error e =>
          simp only [runStep, exec_finish, hmem, if_pos, hj0] at hj
          try dsimp only at hj
          by_cases hi : i = j
          · rw [if_pos hi] at hj
            injection hj with hj
            subst hj
            exact Or.inl (by intro hcon; simp at hcon)
          · rw [if_neg hi] at hj
            exact Or.inr (Or.inr ⟨job, hj, rfl, rfl⟩)
        | ok r =>
          simp only [runStep, exec_finish, hmem, if_pos, hj0] at hj
          try dsimp only at hj
          by_cases hi : i = j
          · rw [if_pos hi] at hj
            cases hl : st.tx_logs j with
            | none =>
              rw [hl] at hj
              injection hj with hj
              subst hj
              exact Or.inr (Or.inl rfl)
            | some t =>
              rw [hl] at hj
              injection hj with hj
              subst hj
              exact Or.inr (Or.inl rfl)
          · rw [if_neg hi] at hj
            exact Or.inr (Or.inr ⟨job, hj, rfl, rfl⟩)
    · simp [runStep, exec_finish, hmem] at hj
      exact Or.inr (Or.inr ⟨job, hj, rfl, rfl⟩)
  | getStatus j chk =>
    cases hj0 : st.jobs j with
    | none =>
      simp [runStep, get_status, hj0] at hj
      exact Or.inr (Or.inr ⟨job, hj, rfl, rfl⟩)
    | some oldj =>
      by_cases hpi : st.payment_instances j = true
      · simp only [runStep, get_status, hj0, hpi, if_pos] at hj
        try dsimp only at hj
        by_cases hi : i = j
        · rw [if_pos hi] at hj
          cases chk <;>
            (injection hj with hj; subst hj;
             exact Or.inr (Or.inr ⟨oldj, hi ▸ hj0, rfl, rfl⟩))
        · rw [if_neg hi] at hj
          exact Or.inr (Or.inr ⟨job, hj, rfl, rfl⟩)
      · simp only [Bool.not_eq_true] at hpi
        simp [runStep, get_status, hj0, hpi] at hj
        exact Or.inr (Or.inr ⟨job, hj, rfl, rfl⟩)

/-- The provable half of the spec invariant: every completed job carries
a result. -/
def ResultInv (st : ServerState) : Prop :=
  ∀ i job, st.jobs i = some job → job.status = .completed →
    job.result.isSome = true

lemma resultInv_init : ResultInv ServerState.init := by
  intro i job hj
  simp [ServerState.init] at hj

lemma resultInv_runStep (st : ServerState) (s : Step)
    (hinv : ResultInv st) : ResultInv (runStep st s) := by
  intro i job hj hc
  rcases runStep_completed_result st s i job hj with h1 | h2 | ⟨old, ho, hs, hr⟩
  · exact absurd hc h1
  · exact h2
  · rw [hs] at hc
    rw [hr]
    exact hinv i old ho hc

lemma resultInv_foldl (l : List Step) (st : ServerState)
    (hinv : ResultInv st) : ResultInv (l.foldl runStep st) := by
  induction l generalizing st with
  | nil => exact hinv
  | cons s rest ih => exact ih (runStep st s) (resultInv_runStep st s hinv)

/-- C1 (amended): at every observable point of every trace, a job whose
status is completed has its result set. The remaining directions of the
claimed invariant fail: a verification failure leaves status = failed
with no error recorded, and a repeated proof submission after a terminal
state can leave a stale result or error on the other status. -/
theorem C1_completed_has_result (l : List Step) (i : Nat) (job : Job)
    (hj : (runTrace l).jobs i = some job)
    (hc : job.status = .completed) :
    job.result.isSome = true :=
  resultInv_foldl l ServerState.init resultInv_init i job hj hc

/-- The completed job produced by trCompleted. -/
def jobCompleted : Job :=
  { status := .completed
    payment_status := .completed
    tx_hash := some "tx"
    input_data := [("text", "hi")]
    result := some (.crewOutput "out")
    error := none
    identifier_from_purchaser := "p"
    tx := some ⟨"tx", .summary 15000000 [⟨"addr", 15000000⟩] 10000000⟩
    nft := some ⟨"mockpolicy1234567890", "Certificate-0", "unknown", 0, "p"⟩ }

/-- C1 witness: the completed job of the concrete happy-path trace has
its result set. -/
theorem C1_witness :
    (runTrace trCompleted).jobs 0 = some jobCompleted ∧
    jobCompleted.status = .completed ∧
    jobCompleted.result.isSome = true :=
  ⟨by decide, rfl,
   C1_completed_has_result trCompleted 0 jobCompleted (by decide) rfl⟩

/-- C3 counterexample: job 0 reaches the terminal status failed (after a
failed verification), and a later successful proof submission plus the
start of its background task move the same job back to running — the
status regresses out of a terminal state. -/
theorem C3_counterexample :
    statusOf (runTrace trFailVerify) 0 = some .failed ∧
    statusOf (runTrace trFailPaidRunning) 0 = some .running ∧
    trFailPaidRunning = trFailVerify ++
      [.submitTx 0 "tx2" (some "addr") (some 10000000) goodFetch,
       .execBegin 0 "tx2"] := by
  refine ⟨?_, ?_, ?_⟩ <;> first | decide | rfl

/-- Number of entries of a task list belonging to job i. -/
def cntFst (i : Nat) : List (Nat × String) → Nat
  | [] => 0
  | p :: ps => (if p.1 = i then 1 else 0) + cntFst i ps

/-- Number of outstanding (created or started, not yet finished)
execution tasks for job i. -/
def cnt (st : ServerState) (i : Nat) : Nat :=
  cntFst i st.scheduled + cntFst i st.inFlight

/-- Weight of a step in the count of proof submissions for job i. -/
def submitWeight (i : Nat) : Step → Nat
  | .submitTx j _ _ _ _ => if j = i then 1 else 0
  | _ => 0

/-- Number of submitTransactionProof calls for job i in a trace. -/
def countSubmits (i : Nat) : List Step → Nat
  | [] => 0
  | s :: rest => submitWeight i s + countSubmits i rest

/-- Whether an observed status is terminal (completed or failed). -/
def isTerminal : Option JobStatus → Bool
  | some .completed => true
  | some .failed => true
  | _ => false

/-- Forward-progress rank of an observed status: absent and
awaiting_payment at 0, running at 1, the terminal statuses at 2. -/
def statusRank : Option JobStatus → Nat
  | none => 0
  | some .awaiting_payment => 0
  | some .running => 1
  | some .completed => 2
  | some .failed => 2

lemma cntFst_append (i : Nat) (l r : List (Nat × String)) :
    cntFst i (l ++ r) = cntFst i l + cntFst i r := by
  induction l with
  | nil => simp [cntFst]
  | cons p ps ih => simp [cntFst, ih, Nat.add_assoc]

lemma cntFst_pos_of_mem {i : Nat} {pid : String} {l : List (Nat × String)}
    (h : (i, pid) ∈ l) : 1 ≤ cntFst i l := by
  induction l with
  | nil => cases h
  | cons p ps ih =>
    rcases List.mem_cons.mp h with h1 | h2
    · rw [← h1]; simp [cntFst]
    · have := ih h2
      simp only [cntFst]
      omega

lemma cntFst_eraseFirst_ne {x : Nat × String} {i : Nat}
    (l : List (Nat × String)) (hne : x.1 ≠ i) :
    cntFst i (eraseFirst l x) = cntFst i l := by
  induction l with
  | nil => rfl
  | cons p ps ih =>
    by_cases hp : p = x
    · subst hp
      simp [eraseFirst, cntFst, hne]
    · simp [eraseFirst, hp, cntFst, ih]

lemma cntFst_eraseFirst_mem {x : Nat × String} {i : Nat}
    {l : List (Nat × String)} (hx : x ∈ l) (hxi : x.1 = i) :
    cntFst i (eraseFirst l x) + 1 = cntFst i l := by
  induction l with
  | nil => cases hx
  | cons p ps ih =>
    by_cases hp : p = x
    · subst hp
      simp [eraseFirst, cntFst, hxi, Nat.add_comm]
    · have hx' : x ∈ ps := by
        rcases List.mem_cons.mp hx with h1 | h2
        · exact absurd h1.symm hp
        · exact h2
      simp only [eraseFirst, if_neg (fun h => hp h), cntFst]
      rw [← ih hx']
      omega

lemma not_mem_of_cntFst_zero {i : Nat} {l : List (Nat × String)}
    (h : cntFst i l = 0) (pid : String) : (i, pid) ∉ l := by
  intro hmem
  have := cntFst_pos_of_mem hmem
  omega

lemma countSubmits_append (i : Nat) (l r : List Step) :
    countSubmits i (l ++ r) = countSubmits i l + countSubmits i r := by
  induction l with
  | nil => simp [countSubmits]
  | cons s rest ih => simp [countSubmits, ih, Nat.add_assoc]

lemma runTrace_append_one (l : List Step) (s : Step) :
    runTrace (l ++ [s]) = runStep (runTrace l) s := by
  simp [runTrace, List.foldl_append]

lemma statusRank_le_two (o : Option JobStatus) : statusRank o ≤ 2 := by
  cases o with
  | none => simp [statusRank]
  | some s => cases s <;> simp [statusRank]

lemma statusRank_le_one_of_not_terminal {o : Option JobStatus}
    (h : isTerminal o = false) : statusRank o ≤ 1 := by
  cases o with
  | none => simp [statusRank]
  | some s => cases s <;> simp_all [statusRank, isTerminal]

/-- Global invariant of main.py's state: this code version never inserts
into payment_instances, and job ids at or above the allocation counter
are unused. -/
def GInv (st : ServerState) : Prop :=
  (∀ k, st.payment_instances k = false) ∧
  (∀ k, st.nextId ≤ k → st.jobs k = none)

lemma ginv_init : GInv ServerState.init :=
  ⟨fun _ => rfl, fun _ _ => rfl⟩

lemma get_status_state_id (st : ServerState) (j : Nat) (chk : PayCheck)
    (hpi : st.payment_instances j = false) :
    (get_status st j chk).1 = st := by
  cases hj : st.jobs j with
  | none => simp [get_status, hj]
  | some job => simp [get_status, hj, hpi]

lemma ginv_runStep (st : ServerState) (s : Step) (hg : GInv st) :
    GInv (runStep st s) := by
  obtain ⟨hpi, hfresh⟩ := hg
  cases s with
  | startJob idp input sa pa =>
    cases hl : lookupStr input "text" with
    | none => exact ⟨by simp [runStep, start_job, hl, hpi],
        by simp [runStep, start_job, hl]; exact hfresh⟩
    | some t =>
      constructor
      · intro k
        simp [runStep, start_job, hl, hpi]
      · intro k hk
        simp only [runStep, start_job, hl] at hk ⊢
        try dsimp only at hk ⊢
        rw [if_neg (by omega)]
        exact hfresh k (by omega)
  | submitTx j h sa pa f =>
    cases hj0 : st.jobs j with
    | none => simpa [runStep, submit_tx, hj0] using ⟨hpi, hfresh⟩
    | some oldj =>
      cases sa with
      | none => simpa [runStep, submit_tx, hj0] using ⟨hpi, hfresh⟩
      | some addr =>
        have hij : ∀ k, st.nextId ≤ k → ¬(k = j) := by
          intro k hk hkj
          rw [hkj] at hk
          rw [hfresh j hk] at hj0
          cases hj0
        by_cases hok : (verify_transaction_pay_to_address f addr
            (pa.getD 10000000)).ok = true
        · constructor
          · intro k; simp [runStep, submit_tx, hj0, hok, hpi]
          · intro k hk
            simp only [runStep, submit_tx, hj0, hok, if_pos] at hk ⊢
            try dsimp only at hk ⊢
            rw [if_neg (hij k hk)]
            exact hfresh k hk
        · rw [Bool.not_eq_true] at hok
          constructor
          · intro k
            simp only [runStep, submit_tx, hj0, hok]
            rw [if_neg (by simp)]
            exact hpi k
          · intro k hk
            simp only [runStep, submit_tx, hj0, hok] at hk ⊢
            rw [if_neg (by simp)] at hk ⊢
            try dsimp only at hk ⊢
            rw [if_neg (hij k hk)]
            exact hfresh k hk
  | execBegin j pid =>
    by_cases hmem : (j, pid) ∈ st.scheduled
    · cases hj0 : st.jobs j with
      | none => simpa [runStep, exec_begin, hmem, hj0] using ⟨hpi, hfresh⟩
      | some oldj =>
        have hij : ∀ k, st.nextId ≤ k → ¬(k = j) := by
          intro k hk hkj
          rw [hkj] at hk
          rw [hfresh j hk] at hj0
          cases hj0
        constructor
        · intro k; simp [runStep, exec_begin, hmem, hj0, hpi]
        · intro k hk
          simp only [runStep, exec_begin, hmem, if_pos, hj0] at hk ⊢
          try dsimp only at hk ⊢
          rw [if_neg (hij k hk)]
          exact hfresh k hk
    · simpa [runStep, exec_begin, hmem] using ⟨hpi, hfresh⟩
  | execFinish j pid outcome co po =>
    by_cases hmem : (j, pid) ∈ st.inFlight
    · cases hj0 : st.jobs j with
      | none => simpa [runStep, exec_finish, hmem, hj0] using ⟨hpi, hfresh⟩
      | some oldj =>
        have hij : ∀ k, st.nextId ≤ k → ¬(k = j) := by
          intro k hk hkj
          rw [hkj] at hk
          rw [hfresh j hk] at hj0
          cases hj0
        cases outcome with
        | error e =>
          constructor
          · intro k
            simp only [runStep, exec_finish, hmem, if_pos, hj0]
            try dsimp only
            by_cases hkj : k = j
            · rw [if_pos hkj]
            · rw [if_neg hkj]; exact hpi k
          · intro k hk
            simp only [runStep, exec_finish, hmem, if_pos, hj0] at hk ⊢
            try dsimp only at hk ⊢
            rw [if_neg (hij k hk)]
            exact hfresh k hk
        | ok r =>
          constructor
          · intro k
            simp only [runStep, exec_finish, hmem, if_pos, hj0]
            try dsimp only
            cases st.tx_logs j <;>
              (try dsimp only
               by_cases hkj : k = j
               · rw [if_pos hkj]
               · rw [if_neg hkj]; exact hpi k)
          · intro k hk
            simp only [runStep, exec_finish, hmem, if_pos, hj0] at hk ⊢
            try dsimp only at hk ⊢
            cases st.tx_logs j <;>
              (try dsimp only at hk ⊢
               rw [if_neg (hij k hk)]
               exact hfresh k hk)
    · simpa [runStep, exec_finish, hmem] using ⟨hpi, hfresh⟩
  | getStatus j chk =>
    have : runStep st (.getStatus j chk) = st := by
      simp only [runStep]
      exact get_status_state_id st j chk (hpi j)
    rw [this]
    exact ⟨hpi, hfresh⟩

lemma ginv_trace (l : List Step) : GInv (runTrace l) := by
  suffices h : ∀ st, GInv st → GInv (l.foldl runStep st) from
    h ServerState.init ginv_init
  induction l with
  | nil => intro st hg; exact hg
  | cons s rest ih =>
    intro st hg
    exact ih (runStep st s) (ginv_runStep st s hg)

lemma startJob_effects (st : ServerState) (idp : String)
    (input : List (String × String)) (sa : Option String) (pa : Option Nat)
    (i : Nat) :
    (runStep st (.startJob idp input sa pa)).scheduled = st.scheduled ∧
    (runStep st (.startJob idp input sa pa)).inFlight = st.inFlight ∧
    (statusOf (runStep st (.startJob idp input sa pa)) i = statusOf st i ∨
      (i = st.nextId ∧
       statusOf (runStep st (.startJob idp input sa pa)) i =
         some .awaiting_payment)) := by
  cases hl : lookupStr input "text" with
  | none => simp [runStep, start_job, hl]
  | some t =>
    refine ⟨by simp [runStep, start_job, hl], by simp [runStep, start_job, hl], ?_⟩
    by_cases hi : i = st.nextId
    · exact Or.inr ⟨hi, by simp [runStep, start_job, hl, statusOf, hi]⟩
    · exact Or.inl (by simp [runStep, start_job, hl, statusOf, hi])

lemma submit_unknown_id (st : ServerState) (j : Nat) (h : String)
    (sa : Option String) (pa : Option Nat) (f : FetchResult)
    (hj0 : st.jobs j = none) :
    runStep st (.submitTx j h sa pa f) = st := by
  simp [runStep, submit_tx, hj0]

lemma submit_noconfig_id (st : ServerState) (j : Nat) (h : String)
    (pa : Option Nat) (f : FetchResult) :
    runStep st (.submitTx j h none pa f) = st := by
  cases hj0 : st.jobs j <;> simp [runStep, submit_tx, hj0]

lemma submit_ok_effects (st : ServerState) (j : Nat) (h : String)
    (addr : String) (pa : Option Nat) (f : FetchResult) (oldj : Job)
    (hj0 : st.jobs j = some oldj)
    (hok : (verify_transaction_pay_to_address f addr (pa.getD 10000000)).ok
      = true) (i : Nat) :
    (runStep st (.submitTx j h (some addr) pa f)).scheduled =
      st.scheduled ++ [(j, h)] ∧
    (runStep st (.submitTx j h (some addr) pa f)).inFlight = st.inFlight ∧
    statusOf (runStep st (.submitTx j h (some addr) pa f)) i =
      (if i = j then some oldj.status else statusOf st i) := by
  refine ⟨by simp [runStep, submit_tx, hj0, hok],
    by simp [runStep, submit_tx, hj0, hok], ?_⟩
  by_cases hi : i = j <;> simp [runStep, submit_tx, hj0, hok, statusOf, hi]

lemma submit_fail_effects (st : ServerState) (j : Nat) (h : String)
    (addr : String) (pa : Option Nat) (f : FetchResult) (oldj : Job)
    (hj0 : st.jobs j = some oldj)
    (hok : (verify_transaction_pay_to_address f addr (pa.getD 10000000)).ok
      = false) (i : Nat) :
    (runStep st (.submitTx j h (some addr) pa f)).scheduled = st.scheduled ∧
    (runStep st (.submitTx j h (some addr) pa f)).inFlight = st.inFlight ∧
    statusOf (runStep st (.submitTx j h (some addr) pa f)) i =
      (if i = j then some .failed else statusOf st i) := by
  refine ⟨?_, ?_, ?_⟩
  · simp only [runStep, submit_tx, hj0, hok]
    rw [if_neg (by simp)]
  · simp only [runStep, submit_tx, hj0, hok]
    rw [if_neg (by simp)]
  · simp only [runStep, submit_tx, hj0, hok]
    rw [if_neg (by simp)]
    by_cases hi : i = j <;> simp [statusOf, hi]

lemma begin_noop_not_scheduled (st : ServerState) (j : Nat) (pid : String)
    (hmem : (j, pid) ∉ st.scheduled) :
    runStep st (.execBegin j pid) = st := by
  simp [runStep, exec_begin, hmem]

lemma begin_noop_unknown (st : ServerState) (j : Nat) (pid : String)
    (hj0 : st.jobs j = none) :
    runStep st (.execBegin j pid) = st := by
  by_cases hmem : (j, pid) ∈ st.scheduled <;>
    simp [runStep, exec_begin, hmem, hj0]

lemma begin_effects (st : ServerState) (j : Nat) (pid : String) (oldj : Job)
    (hmem : (j, pid) ∈ st.scheduled) (hj0 : st.jobs j = some oldj) (i : Nat) :
    (runStep st (.execBegin j pid)).scheduled =
      eraseFirst st.scheduled (j, pid) ∧
    (runStep st (.execBegin j pid)).inFlight = st.inFlight ++ [(j, pid)] ∧
    statusOf (runStep st (.execBegin j pid)) i =
      (if i = j then some .running else statusOf st i) := by
  refine ⟨by simp [runStep, exec_begin, hmem, hj0],
    by simp [runStep, exec_begin, hmem, hj0], ?_⟩
  by_cases hi : i = j <;> simp [runStep, exec_begin, hmem, hj0, statusOf, hi]

lemma finish_noop_not_inflight (st : ServerState) (j : Nat) (pid : String)
    (outcome : Except String PyResult) (co po : Option String)
    (hmem : (j, pid) ∉ st.inFlight) :
    runStep st (.execFinish j pid outcome co po) = st := by
  simp [runStep, exec_finish, hmem]

lemma finish_noop_unknown (st : ServerState) (j : Nat) (pid : String)
    (outcome : Except String PyResult) (co po : Option String)
    (hj0 : st.jobs j = none) :
    runStep st (.execFinish j pid outcome co po) = st := by
  by_cases hmem : (j, pid) ∈ st.inFlight <;>
    simp [runStep, exec_finish, hmem, hj0]

lemma finish_effects (st : ServerState) (j : Nat) (pid : String)
    (outcome : Except String PyResult) (co po : Option String) (oldj : Job)
    (hmem : (j, pid) ∈ st.inFlight) (hj0 : st.jobs j = some oldj) (i : Nat) :
    (runStep st (.execFinish j pid outcome co po)).scheduled =
      st.scheduled ∧
    (runStep st (.execFinish j pid outcome co po)).inFlight =
      eraseFirst st.inFlight (j, pid) ∧
    statusOf (runStep st (.execFinish j pid outcome co po)) i =
      (if i = j then
        some (match outcome with | .error _ => .failed | .ok _ => .completed)
       else statusOf st i) := by
  cases outcome with
  | error e =>
    refine ⟨by simp [runStep, exec_finish, hmem, hj0],
      by simp [runStep, exec_finish, hmem, hj0], ?_⟩
    by_cases hi : i = j <;>
      simp [runStep, exec_finish, hmem, hj0, statusOf, hi]
  | ok r =>
    refine ⟨?_, ?_, ?_⟩
    · cases st.tx_logs j <;> simp [runStep, exec_finish, hmem, hj0]
    · cases st.tx_logs j <;> simp [runStep, exec_finish, hmem, hj0]
    · by_cases hi : i = j <;>
        cases hl : st.tx_logs j <;>
        simp [runStep, exec_finish, hmem, hj0, statusOf, hi, hl]

/-- Per-job bookkeeping invariant: the number of outstanding execution
tasks for job i never exceeds the number of proof submissions for it,
and — as long as at most one submission was made — a terminal status
implies no outstanding task and at least one submission. -/
def JInvHolds (i : Nat) (l : List Step) : Prop :=
  cnt (runTrace l) i ≤ countSubmits i l ∧
  (countSubmits i l ≤ 1 → isTerminal (statusOf (runTrace l) i) = true →
    cnt (runTrace l) i = 0 ∧ 1 ≤ countSubmits i l)

lemma jinv_step (i : Nat) (l : List Step) (s : Step)
    (ih : JInvHolds i l) : JInvHolds i (l ++ [s]) := by
  obtain ⟨ih1, ih2⟩ := ih
  have hrt := runTrace_append_one l s
  have hcs : countSubmits i (l ++ [s]) =
      countSubmits i l + submitWeight i s := by
    rw [countSubmits_append]; simp [countSubmits]
  cases s with
  | startJob idp input sa pa =>
    obtain ⟨e1, e2, e3⟩ := startJob_effects (runTrace l) idp input sa pa i
    have hcnt : cnt (runStep (runTrace l) (.startJob idp input sa pa)) i =
        cnt (runTrace l) i := by
      simp [cnt, e1, e2]
    constructor
    · rw [hrt, hcnt, hcs]
      simp only [submitWeight]
      omega
    · intro h1 hterm
      rw [hrt] at hterm
      rw [hrt, hcnt]
      rw [hcs] at h1 ⊢
      simp only [submitWeight] at h1 ⊢
      rcases e3 with he | ⟨hi, he⟩
      · rw [he] at hterm
        obtain ⟨c0, c1⟩ := ih2 (by omega) hterm
        exact ⟨c0, by omega⟩
      · rw [he] at hterm
        exact Bool.noConfusion hterm
  | submitTx j h sa pa f =>
    have hw : submitWeight i (Step.submitTx j h sa pa f) =
        (if j = i then 1 else 0) := rfl
    cases hj0 : (runTrace l).jobs j with
    | none =>
      have hid := submit_unknown_id (runTrace l) j h sa pa f hj0
      constructor
      · rw [hrt, hid, hcs, hw]
        omega
      · intro h1 hterm
        rw [hrt, hid] at hterm ⊢
        rw [hcs, hw] at h1 ⊢
        obtain ⟨c0, c1⟩ := ih2 (by omega) hterm
        exact ⟨c0, by omega⟩
    | some oldj =>
      cases sa with
      | none =>
        have hid := submit_noconfig_id (runTrace l) j h pa f
        constructor
        · rw [hrt, hid, hcs, hw]
          omega
        · intro h1 hterm
          rw [hrt, hid] at hterm ⊢
          rw [hcs, hw] at h1 ⊢
          obtain ⟨c0, c1⟩ := ih2 (by omega) hterm
          exact ⟨c0, by omega⟩
      | some addr =>
        by_cases hok : (verify_transaction_pay_to_address f addr
            (pa.getD 10000000)).ok = true
        · obtain ⟨e1, e2, e3⟩ :=
            submit_ok_effects (runTrace l) j h addr pa f oldj hj0 hok i
          by_cases hji : j = i
          · have hone : cntFst i [(j, h)] = 1 := by simp [cntFst, hji]
            have hcnt : cnt (runStep (runTrace l)
                (.submitTx j h (some addr) pa f)) i =
                cnt (runTrace l) i + 1 := by
              simp only [cnt, e1, e2, cntFst_append, hone]
              omega
            have hold : statusOf (runTrace l) i = some oldj.status := by
              rw [statusOf, ← hji, hj0]
              rfl
            have hstat : statusOf (runStep (runTrace l)
                (.submitTx j h (some addr) pa f)) i =
                statusOf (runTrace l) i := by
              rw [e3, if_pos hji.symm, hold]
            constructor
            · rw [hrt, hcnt, hcs, hw, if_pos hji]
              omega
            · intro h1 hterm
              rw [hrt, hstat] at hterm
              rw [hcs, hw, if_pos hji] at h1
              obtain ⟨c0, c1⟩ := ih2 (by omega) hterm
              rw [hrt, hcnt, hcs, hw, if_pos hji]
              omega
          · have hcnt : cnt (runStep (runTrace l)
                (.submitTx j h (some addr) pa f)) i =
                cnt (runTrace l) i := by
              simp [cnt, e1, e2, cntFst_append, cntFst, hji]
            have hstat : statusOf (runStep (runTrace l)
                (.submitTx j h (some addr) pa f)) i =
                statusOf (runTrace l) i := by
              rw [e3, if_neg (fun hc => hji hc.symm)]
            constructor
            · rw [hrt, hcnt, hcs, hw, if_neg hji]
              omega
            · intro h1 hterm
              rw [hrt, hstat] at hterm
              rw [hrt, hcnt]
              rw [hcs, hw, if_neg hji] at h1 ⊢
              obtain ⟨c0, c1⟩ := ih2 (by omega) hterm
              exact ⟨c0, by omega⟩
        · rw [Bool.not_eq_true] at hok
          obtain ⟨e1, e2, e3⟩ :=
            submit_fail_effects (runTrace l) j h addr pa f oldj hj0 hok i
          have hcnt : cnt (runStep (runTrace l)
              (.submitTx j h (some addr) pa f)) i =
              cnt (runTrace l) i := by
            simp [cnt, e1, e2]
          by_cases hji : j = i
          · constructor
            · rw [hrt, hcnt, hcs, hw, if_pos hji]
              omega
            · intro h1 _
              rw [hrt, hcnt]
              rw [hcs, hw, if_pos hji] at h1 ⊢
              omega
          · have hstat : statusOf (runStep (runTrace l)
                (.submitTx j h (some addr) pa f)) i =
                statusOf (runTrace l) i := by
              rw [e3, if_neg (fun hc => hji hc.symm)]
            constructor
            · rw [hrt, hcnt, hcs, hw, if_neg hji]
              omega
            · intro h1 hterm
              rw [hrt, hstat] at hterm
              rw [hrt, hcnt]
              rw [hcs, hw, if_neg hji] at h1 ⊢
              obtain ⟨c0, c1⟩ := ih2 (by omega) hterm
              exact ⟨c0, by omega⟩
  | execBegin j pid =>
    have hw : submitWeight i (Step.execBegin j pid) = 0 := rfl
    by_cases hmem : (j, pid) ∈ (runTrace l).scheduled
    · cases hj0 : (runTrace l).jobs j with
      | none =>
        have hid := begin_noop_unknown (runTrace l) j pid hj0
        constructor
        · rw [hrt, hid, hcs, hw]
          omega
        · intro h1 hterm
          rw [hrt, hid] at hterm ⊢
          rw [hcs, hw] at h1 ⊢
          obtain ⟨c0, c1⟩ := ih2 (by omega) hterm
          exact ⟨c0, by omega⟩
      | some oldj =>
        obtain ⟨e1, e2, e3⟩ := begin_effects (runTrace l) j pid oldj hmem hj0 i
        by_cases hji : j = i
        · have herase := cntFst_eraseFirst_mem (x := (j, pid)) (i := i)
            hmem hji
          have hone : cntFst i [(j, pid)] = 1 := by simp [cntFst, hji]
          have hcnt : cnt (runStep (runTrace l) (.execBegin j pid)) i =
              cnt (runTrace l) i := by
            simp only [cnt, e1, e2, cntFst_append, hone]
            omega
          have hstat : statusOf (runStep (runTrace l) (.execBegin j pid)) i =
              some .running := by
            rw [e3, if_pos hji.symm]
          constructor
          · rw [hrt, hcnt, hcs, hw]
            omega
          · intro h1 hterm
            rw [hrt, hstat] at hterm
            exact Bool.noConfusion hterm
        · have herase := cntFst_eraseFirst_ne (x := (j, pid)) (i := i)
            (runTrace l).scheduled hji
          have hcnt : cnt (runStep (runTrace l) (.execBegin j pid)) i =
              cnt (runTrace l) i := by
            have hzero : cntFst i [(j, pid)] = 0 := by simp [cntFst, hji]
            simp only [cnt, e1, e2, cntFst_append, hzero, herase]
            omega
          have hstat : statusOf (runStep (runTrace l) (.execBegin j pid)) i =
              statusOf (runTrace l) i := by
            rw [e3, if_neg (fun hc => hji hc.symm)]
          constructor
          · rw [hrt, hcnt, hcs, hw]
            omega
          · intro h1 hterm
            rw [hrt, hstat] at hterm
            rw [hrt, hcnt]
            rw [hcs, hw] at h1 ⊢
            obtain ⟨c0, c1⟩ := ih2 (by omega) hterm
            exact ⟨c0, by omega⟩
    · have hid := begin_noop_not_scheduled (runTrace l) j pid hmem
      constructor
      · rw [hrt, hid, hcs, hw]
        omega
      · intro h1 hterm
        rw [hrt, hid] at hterm ⊢
        rw [hcs, hw] at h1 ⊢
        obtain ⟨c0, c1⟩ := ih2 (by omega) hterm
        exact ⟨c0, by omega⟩
  | execFinish j pid outcome co po =>
    have hw : submitWeight i (Step.execFinish j pid outcome co po) = 0 := rfl
    by_cases hmem : (j, pid) ∈ (runTrace l).inFlight
    · cases hj0 : (runTrace l).jobs j with
      | none =>
        have hid := finish_noop_unknown (runTrace l) j pid outcome co po hj0
        constructor
        · rw [hrt, hid, hcs, hw]
          omega
        · intro h1 hterm
          rw [hrt, hid] at hterm ⊢
          rw [hcs, hw] at h1 ⊢
          obtain ⟨c0, c1⟩ := ih2 (by omega) hterm
          exact ⟨c0, by omega⟩
      | some oldj =>
        obtain ⟨e1, e2, e3⟩ :=
          finish_effects (runTrace l) j pid outcome co po oldj hmem hj0 i
        by_cases hji : j = i
        · have herase := cntFst_eraseFirst_mem (x := (j, pid)) (i := i)
            hmem hji
          have hpos : 1 ≤ cntFst i (runTrace l).inFlight :=
            cntFst_pos_of_mem (hji ▸ hmem)
          constructor
          · rw [hrt, hcs, hw]
            simp only [cnt, e1, e2] at ih1 ⊢
            omega
          · intro h1 _
            rw [hcs, hw] at h1
            rw [hrt, hcs, hw]
            simp only [cnt, e1, e2] at ih1 ⊢
            omega
        · have herase := cntFst_eraseFirst_ne (x := (j, pid)) (i := i)
            (runTrace l).inFlight hji
          have hcnt : cnt (runStep (runTrace l)
              (.execFinish j pid outcome co po)) i =
              cnt (runTrace l) i := by
            simp only [cnt, e1, e2, herase]
          have hstat : statusOf (runStep (runTrace l)
              (.execFinish j pid outcome co po)) i =
              statusOf (runTrace l) i := by
            rw [e3, if_neg (fun hc => hji hc.symm)]
          constructor
          · rw [hrt, hcnt, hcs, hw]
            omega
          · intro h1 hterm
            rw [hrt, hstat] at hterm
            rw [hrt, hcnt]
            rw [hcs, hw] at h1 ⊢
            obtain ⟨c0, c1⟩ := ih2 (by omega) hterm
            exact ⟨c0, by omega⟩
    · have hid := finish_noop_not_inflight (runTrace l) j pid outcome co po hmem
      constructor
      · rw [hrt, hid, hcs, hw]
        omega
      · intro h1 hterm
        rw [hrt, hid] at hterm ⊢
        rw [hcs, hw] at h1 ⊢
        obtain ⟨c0, c1⟩ := ih2 (by omega) hterm
        exact ⟨c0, by omega⟩
  | getStatus j chk =>
    have hw : submitWeight i (Step.getStatus j chk) = 0 := rfl
    have hid : runStep (runTrace l) (.getStatus j chk) = runTrace l := by
      simp only [runStep]
      exact get_status_state_id (runTrace l) j chk ((ginv_trace l).1 j)
    constructor
    · rw [hrt, hid, hcs, hw]
      omega
    · intro h1 hterm
      rw [hrt, hid] at hterm ⊢
      rw [hcs, hw] at h1 ⊢
      obtain ⟨c0, c1⟩ := ih2 (by omega) hterm
      exact ⟨c0, by omega⟩

lemma jinv_trace (i : Nat) (l : List Step) : JInvHolds i l := by
  induction l using List.reverseRecOn with
  | nil =>
    constructor
    · exact Nat.le.refl
    · intro h1 hterm
      exact Bool.noConfusion hterm
  | append_singleton l s ih => exact jinv_step i l s ih

lemma statusRank_runStep_mono (st : ServerState) (s : Step) (i : Nat)
    (hg : GInv st) (hnt : isTerminal (statusOf st i) = false) :
    statusRank (statusOf st i) ≤ statusRank (statusOf (runStep st s) i) := by
  cases s with
  | startJob idp input sa pa =>
    obtain ⟨e1, e2, e3⟩ := startJob_effects st idp input sa pa i
    rcases e3 with he | ⟨hi, he⟩
    · rw [he]
    · have hnone : st.jobs i = none := hg.2 i (by omega)
      rw [statusOf, hnone]
      simp [statusRank]
  | submitTx j h sa pa f =>
    cases hj0 : st.jobs j with
    | none => rw [submit_unknown_id st j h sa pa f hj0]
    | some oldj =>
      cases sa with
      | none => rw [submit_noconfig_id st j h pa f]
      | some addr =>
        by_cases hok : (verify_transaction_pay_to_address f addr
            (pa.getD 10000000)).ok = true
        · obtain ⟨e1, e2, e3⟩ := submit_ok_effects st j h addr pa f oldj hj0 hok i
          rw [e3]
          by_cases hi : i = j
          · rw [if_pos hi, statusOf, hi, hj0]
            rfl
          · rw [if_neg hi]
        · rw [Bool.not_eq_true] at hok
          obtain ⟨e1, e2, e3⟩ := submit_fail_effects st j h addr pa f oldj hj0 hok i
          rw [e3]
          by_cases hi : i = j
          · rw [if_pos hi]
            exact le_trans (statusRank_le_two _) (by simp [statusRank])
          · rw [if_neg hi]
  | execBegin j pid =>
    by_cases hmem : (j, pid) ∈ st.scheduled
    · cases hj0 : st.jobs j with
      | none => rw [begin_noop_unknown st j pid hj0]
      | some oldj =>
        obtain ⟨e1, e2, e3⟩ := begin_effects st j pid oldj hmem hj0 i
        rw [e3]
        by_cases hi : i = j
        · rw [if_pos hi]
          exact le_trans (statusRank_le_one_of_not_terminal hnt)
            (by simp [statusRank])
        · rw [if_neg hi]
    · rw [begin_noop_not_scheduled st j pid hmem]
  | execFinish j pid outcome co po =>
    by_cases hmem : (j, pid) ∈ st.inFlight
    · cases hj0 : st.jobs j with
      | none => rw [finish_noop_unknown st j pid outcome co po hj0]
      | some oldj =>
        obtain ⟨e1, e2, e3⟩ := finish_effects st j pid outcome co po oldj hmem hj0 i
        rw [e3]
        by_cases hi : i = j
        · rw [if_pos hi]
          refine le_trans (statusRank_le_two _) ?_
          cases outcome <;> simp [statusRank]
        · rw [if_neg hi]
    · rw [finish_noop_not_inflight st j pid outcome co po hmem]
  | getStatus j chk =>
    have hid : runStep st (.getStatus j chk) = st := by
      simp only [runStep]
      exact get_status_state_id st j chk (hg.1 j)
    rw [hid]

lemma status_stable_terminal (st : ServerState) (s : Step) (i : Nat)
    (hg : GInv st) (hterm : isTerminal (statusOf st i) = true)
    (hcnt : cnt st i = 0) (hns : submitWeight i s = 0) :
    statusOf (runStep st s) i = statusOf st i ∧ cnt (runStep st s) i = 0 := by
  have hcs : cntFst i st.scheduled = 0 ∧ cntFst i st.inFlight = 0 := by
    simp only [cnt] at hcnt
    omega
  cases s with
  | startJob idp input sa pa =>
    obtain ⟨e1, e2, e3⟩ := startJob_effects st idp input sa pa i
    have hcnt' : cnt (runStep st (.startJob idp input sa pa)) i = 0 := by
      simp only [cnt, e1, e2]
      omega
    rcases e3 with he | ⟨hi, he⟩
    · exact ⟨he, hcnt'⟩
    · exfalso
      have hnone : st.jobs i = none := hg.2 i (by omega)
      rw [statusOf, hnone] at hterm
      exact Bool.noConfusion hterm
  | submitTx j h sa pa f =>
    have hji : ¬j = i := by
      intro hc
      simp [submitWeight, hc] at hns
    cases hj0 : st.jobs j with
    | none =>
      rw [submit_unknown_id st j h sa pa f hj0]
      exact ⟨rfl, hcnt⟩
    | some oldj =>
      cases sa with
      | none =>
        rw [submit_noconfig_id st j h pa f]
        exact ⟨rfl, hcnt⟩
      | some addr =>
        by_cases hok : (verify_transaction_pay_to_address f addr
            (pa.getD 10000000)).ok = true
        · obtain ⟨e1, e2, e3⟩ := submit_ok_effects st j h addr pa f oldj hj0 hok i
          have hzero : cntFst i [(j, h)] = 0 := by simp [cntFst, hji]
          refine ⟨by rw [e3, if_neg (fun hc => hji hc.symm)], ?_⟩
          simp only [cnt, e1, e2, cntFst_append, hzero]
          omega
        · rw [Bool.not_eq_true] at hok
          obtain ⟨e1, e2, e3⟩ := submit_fail_effects st j h addr pa f oldj hj0 hok i
          refine ⟨by rw [e3, if_neg (fun hc => hji hc.symm)], ?_⟩
          simp only [cnt, e1, e2]
          omega
  | execBegin j pid =>
    by_cases hji : j = i
    · have hnm : (j, pid) ∉ st.scheduled := by
        rw [hji]
        exact not_mem_of_cntFst_zero hcs.1 pid
      rw [begin_noop_not_scheduled st j pid hnm]
      exact ⟨rfl, hcnt⟩
    · by_cases hmem : (j, pid) ∈ st.scheduled
      · cases hj0 : st.jobs j with
        | none =>
          rw [begin_noop_unknown st j pid hj0]
          exact ⟨rfl, hcnt⟩
        | some oldj =>
          obtain ⟨e1, e2, e3⟩ := begin_effects st j pid oldj hmem hj0 i
          have herase := cntFst_eraseFirst_ne (x := (j, pid)) (i := i)
            st.scheduled hji
          have hzero : cntFst i [(j, pid)] = 0 := by simp [cntFst, hji]
          refine ⟨by rw [e3, if_neg (fun hc => hji hc.symm)], ?_⟩
          simp only [cnt, e1, e2, cntFst_append, hzero, herase]
          omega
      · rw [begin_noop_not_scheduled st j pid hmem]
        exact ⟨rfl, hcnt⟩
  | execFinish j pid outcome co po =>
    by_cases hji : j = i
    · have hnm : (j, pid) ∉ st.inFlight := by
        rw [hji]
        exact not_mem_of_cntFst_zero hcs.2 pid
      rw [finish_noop_not_inflight st j pid outcome co po hnm]
      exact ⟨rfl, hcnt⟩
    · by_cases hmem : (j, pid) ∈ st.inFlight
      · cases hj0 : st.jobs j with
        | none =>
          rw [finish_noop_unknown st j pid outcome co po hj0]
          exact ⟨rfl, hcnt⟩
        | some oldj =>
          obtain ⟨e1, e2, e3⟩ := finish_effects st j pid outcome co po oldj hmem hj0 i
          have herase := cntFst_eraseFirst_ne (x := (j, pid)) (i := i)
            st.inFlight hji
          refine ⟨by rw [e3, if_neg (fun hc => hji hc.symm)], ?_⟩
          simp only [cnt, e1, e2, herase]
          omega
      · rw [finish_noop_not_inflight st j pid outcome co po hmem]
        exact ⟨rfl, hcnt⟩
  | getStatus j chk =>
    have hid : runStep st (.getStatus j chk) = st := by
      simp only [runStep]
      exact get_status_state_id st j chk (hg.1 j)
    rw [hid]
    exact ⟨rfl, hcnt⟩

lemma step_mono_final (l : List Step) (s : Step) (i : Nat)
    (hc : countSubmits i (l ++ [s]) ≤ 1) :
    statusRank (statusOf (runTrace l) i) ≤
      statusRank (statusOf (runTrace (l ++ [s])) i) ∧
    (isTerminal (statusOf (runTrace l) i) = true →
      statusOf (runTrace (l ++ [s])) i = statusOf (runTrace l) i) := by
  have hcs : countSubmits i (l ++ [s]) =
      countSubmits i l + submitWeight i s := by
    rw [countSubmits_append]; simp [countSubmits]
  by_cases hterm : isTerminal (statusOf (runTrace l) i) = true
  · have hj := jinv_trace i l
    have hcs1 : countSubmits i l ≤ 1 := by omega
    obtain ⟨hcnt0, hge⟩ := hj.2 hcs1 hterm
    have hw : submitWeight i s = 0 := by omega
    obtain ⟨hst, _⟩ := status_stable_terminal (runTrace l) s i
      (ginv_trace l) hterm hcnt0 hw
    rw [runTrace_append_one]
    exact ⟨by rw [hst], fun _ => hst⟩
  · rw [Bool.not_eq_true] at hterm
    refine ⟨?_, fun ht => absurd ht (by rw [hterm]; simp)⟩
    rw [runTrace_append_one]
    exact statusRank_runStep_mono (runTrace l) s i (ginv_trace l) hterm

/-- C3 (amended): for a job with at most one submitTransactionProof call
in the whole trace, the status only moves forward along
awaiting_payment, running, terminal (its rank never decreases between
any point and any later point), and a terminal status, once reached,
never changes. Without that restriction the property fails: a repeated
proof submission can move a terminal job back to running, or a completed
job to failed. -/
theorem C3_status_monotone_single_submission (l1 l2 : List Step) (i : Nat)
    (hcount : countSubmits i (l1 ++ l2) ≤ 1) :
    statusRank (statusOf (runTrace l1) i) ≤
      statusRank (statusOf (runTrace (l1 ++ l2)) i) ∧
    (isTerminal (statusOf (runTrace l1) i) = true →
      statusOf (runTrace (l1 ++ l2)) i = statusOf (runTrace l1) i) := by
  induction l2 using List.reverseRecOn with
  | nil => simp
  | append_singleton l2 s ih =>
    have hassoc : l1 ++ (l2 ++ [s]) = (l1 ++ l2) ++ [s] :=
      (List.append_assoc l1 l2 [s]).symm
    rw [hassoc] at hcount ⊢
    have hc' : countSubmits i (l1 ++ l2) ≤ 1 := by
      rw [countSubmits_append] at hcount
      omega
    obtain ⟨ih1, ih2⟩ := ih hc'
    obtain ⟨s1, s2⟩ := step_mono_final (l1 ++ l2) s i hcount
    refine ⟨le_trans ih1 s1, fun ht => ?_⟩
    have hmid := ih2 ht
    have htermmid : isTerminal (statusOf (runTrace (l1 ++ l2)) i) = true := by
      rw [hmid]; exact ht
    rw [s2 htermmid, hmid]

/-- C3 witness: along the single-submission happy path, the rank at the
accepted point does not exceed the rank after the execution finishes, and
the completed status is stable under a further status poll. -/
theorem C3_witness :
    countSubmits 0 (trAccepted ++
      [.execBegin 0 "tx",
       .execFinish 0 "tx" (.ok (.crewOutput "out")) none none,
       .getStatus 0 .valueErr]) ≤ 1 ∧
    statusRank (statusOf (runTrace trAccepted) 0) ≤
      statusRank (statusOf (runTrace (trAccepted ++
        [.execBegin 0 "tx",
         .execFinish 0 "tx" (.ok (.crewOutput "out")) none none,
         .getStatus 0 .valueErr])) 0) :=
  ⟨by decide,
   (C3_status_monotone_single_submission trAccepted
      [.execBegin 0 "tx",
       .execFinish 0 "tx" (.ok (.crewOutput "out")) none none,
       .getStatus 0 .valueErr] 0 (by decide)).1⟩
